import Mathlib

/-!
Verification of the OS/161 process subsystem (src/kern/proc/proc.c): the
process-identifier table (`pidtable_bootstrap`, `pidtable_add`,
`pidtable_exit`, `pidtable_update_children`) and the process-control
syscalls (`sys_fork`, `sys_waitpid`, `sys__exit`), together with the
allocation/unwinding discipline of `proc_create` and `sys_fork`.

The table state is embedded as a record of total functions over slot
indices; the C arrays' uninitialized cells (index 0 and indices outside
the table) are given the explicit value `PidStatus.UNINIT` / `none`.
Panics (`panic`, failed `KASSERT`) are embedded as `none` / dedicated
result constructors; `thread_exit` is embedded as a flag on the result,
since the call never returns control to the caller.
-/

namespace OS161

/-- Modelled from the spec: the pid range is the fixed interval
`[PID_MIN, PID_MAX)` plus the reserved kernel slot `1`; the numeric values
come from the OS/161 limits header, which is not part of src/. -/
def PID_MAX : Nat := 32767

/-- Modelled from the spec: smallest allocatable pid; pid 1 is reserved for
the kernel process, so allocation starts at 2. -/
def PID_MIN : Nat := 2

/-- Slot status of one pid-table entry, from the status enum used by
proc.c.  `UNINIT` is not a value of the C enum: it stands for the
uninitialized (garbage) contents of array cells the code never writes
(index 0 and out-of-range indices). -/
inductive PidStatus where
  | READY
  | RUNNING
  | ZOMBIE
  | ORPHAN
  | UNINIT
deriving DecidableEq, Repr

open PidStatus

/-- Modelled from the spec: the integer value of each status constant
(the enum declaration lives in a header absent from src/); values are
taken in declaration order.  `sys_waitpid` stores such an integer through
its result pointer.  `UNINIT` maps to an arbitrary garbage value. -/
def statusToInt : PidStatus → Int
  | READY => 0
  | RUNNING => 1
  | ZOMBIE => 2
  | ORPHAN => 3
  | UNINIT => -1

/-- The global pid table: `pid_procs` (proc pointers, embedded as numeric
tags, `none` = NULL), `pid_status`, `pid_waitcode` (`none` = never
written), `pid_available` and `pid_next` (an `int` in C, so it can hold
the full sentinel `-1`). -/
structure PidTable where
  procs : Nat → Option Nat
  status : Nat → PidStatus
  waitcode : Nat → Option Int
  available : Nat
  next : Int

/-- Pointer tag of the kernel process object `kproc`. -/
def kprocTag : Nat := 0

/-- The kernel process's pid: `proc_create` sets `proc->pid = 1` ("the
kernel thread is defined to be 1"). -/
def kprocPid : Nat := 1

/-- `pidtable_bootstrap`: kernel slot (`kproc->pid` = 1) RUNNING with
waitcode `(int) NULL` = 0; slots `PID_MIN .. PID_MAX-1` READY with NULL
proc and zero waitcode; `pid_available = PID_MAX - 1`;
`pid_next = PID_MIN`.  Index 0 is never written and stays uninitialized. -/
def pidtable_bootstrap : PidTable :=
  { procs := fun i => if i = kprocPid then some kprocTag else none
    status := fun i =>
      if i = kprocPid then RUNNING
      else if PID_MIN ≤ i ∧ i < PID_MAX then READY
      else UNINIT
    waitcode := fun i =>
      if i = kprocPid ∨ (PID_MIN ≤ i ∧ i < PID_MAX) then some 0 else none
    available := PID_MAX - 1
    next := Int.ofNat PID_MIN }

/-- The forward scan of `pidtable_add`:
`for (i = next; i < PID_MAX; i++) if (pid_status[i] == READY) ...`,
embedded with structural fuel (the loop runs at most `PID_MAX - i`
iterations). -/
def findReadyAux (status : Nat → PidStatus) : Nat → Nat → Option Nat
  | 0, _ => none
  | fuel + 1, i =>
    if i < PID_MAX then
      if status i = READY then some i else findReadyAux status fuel (i + 1)
    else none

def findReadyFrom (status : Nat → PidStatus) (i : Nat) : Option Nat :=
  findReadyAux status (PID_MAX - i) i

/-- Result of `pidtable_add`.  `fullPanic` is the `pid_available == 0`
branch, which calls `panic("PID table full!\n")` and never returns.
`oobWrite` marks the executions in which `pid_next` does not name a valid
array index while `pid_available > 0`: the C code then writes
`pid_procs[pid_next]` out of bounds, which is undefined behaviour. -/
inductive AddResult where
  | ok (pid : Nat) (st : PidTable) (children : List Nat)
  | fullPanic
  | oobWrite

/-- `pidtable_add(proc)`: under the table lock, append `proc` to the
current process's children list, then if `pid_available > 0` take the slot
`pid_next`, mark it RUNNING with NULL waitcode, decrement `pid_available`,
and advance the hint: if `pid_available` is still positive, scan forward
from the allocated slot for the first READY slot (leaving the hint
unchanged when none is found); otherwise set the hint to the full sentinel
`-1`.  Children lists hold proc pointers; they are embedded as lists of
numeric tags. -/
def pidtable_add (st : PidTable) (curChildren : List Nat) (procTag : Nat) :
    AddResult :=
  let children := curChildren ++ [procTag]
  if st.available > 0 then
    match st.next with
    | Int.ofNat n =>
      if n < PID_MAX then
        let st1 : PidTable :=
          { st with
            procs := fun j => if j = n then some procTag else st.procs j
            status := fun j => if j = n then RUNNING else st.status j
            waitcode := fun j => if j = n then some 0 else st.waitcode j
            available := st.available - 1 }
        let st2 : PidTable :=
          if st1.available > 0 then
            match findReadyFrom st1.status n with
            | some k => { st1 with next := Int.ofNat k }
            | none => st1
          else { st1 with next := -1 }
        AddResult.ok n st2 children
      else AddResult.oobWrite
    | Int.negSucc _ => AddResult.oobWrite
  else AddResult.fullPanic

def AddResult.pid? : AddResult → Option Nat
  | .ok pid _ _ => some pid
  | _ => none

def AddResult.state? : AddResult → Option PidTable
  | .ok _ st _ => some st
  | _ => none

def AddResult.children? : AddResult → Option (List Nat)
  | .ok _ _ ch => some ch
  | _ => none

/-- A proc pointer as the pid-table code sees it: the pointer identity
(`tag`) and the current value of its `pid` field.  A parent's `children`
array stores such pointers; since a child's `pid` field is assigned right
after `pidtable_add` returns, the entries carry the assigned pid. -/
structure ProcRef where
  tag : Nat
  pid : Nat
deriving DecidableEq, Repr

/-- The kernel process `kproc` (pointer tag 0, pid 1). -/
def kproc : ProcRef := ⟨kprocTag, kprocPid⟩

/-- `proc_destroy(proc)`: the embedding records only the guard relevant to
the pid table, `KASSERT(proc != NULL)` (non-null by construction here) and
`KASSERT(proc != kproc)` — destroying the kernel process is a fatal
assertion, embedded as `none`.  The body's freeing of the cwd reference,
address space, file table, threads, name and object acts on state outside
the pid table. -/
def proc_destroy (p : ProcRef) : Option Unit :=
  if p.tag = kprocTag then none else some ()

/-- The four statements that free a slot, shared verbatim by the ZOMBIE
branch of `pidtable_update_children` and the ORPHAN branch of
`pidtable_exit`: `pid_available++`, `pid_procs[pid] = NULL`,
`pid_status[pid] = READY`, `pid_waitcode[pid] = (int) NULL`. -/
def freeSlot (st : PidTable) (pid : Nat) : PidTable :=
  { st with
    available := st.available + 1
    procs := fun j => if j = pid then none else st.procs j
    status := fun j => if j = pid then READY else st.status j
    waitcode := fun j => if j = pid then some 0 else st.waitcode j }

/-- The loop of `pidtable_update_children`:
`for (i = num_child-1; i >= 0; i--)`, embedded by recursion on the number
of entries still to visit (`i + 1` visits index `i` next).  Per child:
RUNNING becomes ORPHAN; ZOMBIE frees the slot and destroys the child
(`proc_destroy`, fatal for `kproc`); any other status hits
`panic("Tried to modify a child that did not exist.\n")`, embedded as
`none`.  The second output accumulates the tags passed to `proc_destroy`,
in call order.  (`KASSERT(child != NULL)` holds by construction: list
entries are values; an out-of-range `array_get` is likewise embedded as
`none`.) -/
def ucLoop (children : List ProcRef) :
    Nat → PidTable → List Nat → Option (PidTable × List Nat)
  | 0, st, ds => some (st, ds)
  | i + 1, st, ds =>
    match children[i]? with
    | none => none
    | some child =>
      match st.status child.pid with
      | RUNNING =>
        ucLoop children i
          { st with
            status := fun j => if j = child.pid then ORPHAN else st.status j }
          ds
      | ZOMBIE =>
        match proc_destroy child with
        | none => none
        | some _ => ucLoop children i (freeSlot st child.pid) (ds ++ [child.tag])
      | _ => none

/-- `pidtable_update_children(proc)`: walk `proc->children` downward from
index `num_child - 1` to 0.  The children list is passed explicitly (it is
the `proc->children` array at the moment of the call). -/
def pidtable_update_children (st : PidTable) (children : List ProcRef) :
    Option (PidTable × List Nat) :=
  ucLoop children children.length st []

/-- Outcome of a non-panicking `pidtable_exit`: the table after the
transition, the tags passed to `proc_destroy` (children reaped by
`pidtable_update_children`, then possibly the exiting process itself),
whether `cv_broadcast` ran, and whether `thread_exit` was reached (the
call never returns control to the caller). -/
structure ExitDone where
  st : PidTable
  destroyed : List Nat
  broadcast : Bool
  threadExited : Bool

/-- `pidtable_exit(proc, waitcode)`: under the lock, first
`pidtable_update_children(proc)`, then the own slot: RUNNING becomes
ZOMBIE with the waitcode recorded; ORPHAN frees the slot and calls
`proc_destroy(curproc)`; anything else panics (`none`).  Afterwards
`cv_broadcast` and, after releasing the lock, `thread_exit`.  The C code
destroys `curproc` in the ORPHAN branch; its only caller (`sys__exit`)
passes `curproc` as `proc`, so `curp` is the current process. -/
def pidtable_exit (st : PidTable) (curp : ProcRef) (p : ProcRef)
    (pChildren : List ProcRef) (waitcode : Int) : Option ExitDone :=
  match pidtable_update_children st pChildren with
  | none => none
  | some (st1, ds) =>
    match st1.status p.pid with
    | RUNNING =>
      some
        { st :=
            { st1 with
              status := fun j => if j = p.pid then ZOMBIE else st1.status j
              waitcode := fun j =>
                if j = p.pid then some waitcode else st1.waitcode j }
          destroyed := ds
          broadcast := true
          threadExited := true }
    | ORPHAN =>
      match proc_destroy curp with
      | none => none
      | some _ =>
        some
          { st := freeSlot st1 p.pid
            destroyed := ds ++ [curp.tag]
            broadcast := true
            threadExited := true }
    | _ => none

/-- `sys__exit(waitcode)`: delegates to `pidtable_exit(curproc, waitcode)`
and never returns (the trailing panic is unreachable). -/
def sys__exit (st : PidTable) (curp : ProcRef) (curChildren : List ProcRef)
    (waitcode : Int) : Option ExitDone :=
  pidtable_exit st curp curp curChildren waitcode

/-- Outcome of `sys_waitpid`: either the calling thread stays blocked on
the condition variable (the status it re-reads after every wakeup is not
ZOMBIE, so with no intervening transition it waits forever), or the call
returns with return value `ret` and the value stored through `retval0`
(`none` when the pointer is NULL, or nothing was written). -/
inductive WaitOutcome where
  | blocked
  | returned (ret : Int) (written : Option Int)
deriving DecidableEq, Repr

/-- `sys_waitpid(pid, retval0)`: reads `pid_status[pid]` with no
validation of `pid` whatsoever, waits on the condition variable while the
status is not ZOMBIE, and then — note — stores the local `status` variable
(the integer value of the ZOMBIE constant), not `pid_waitcode[pid]`,
through `retval0` when it is non-NULL, and returns 0. -/
def sys_waitpid (st : PidTable) (pid : Nat) (retvalNull : Bool) :
    WaitOutcome :=
  let status := st.status pid
  if status = ZOMBIE then
    WaitOutcome.returned 0
      (if retvalNull then none else some (statusToInt status))
  else WaitOutcome.blocked

/-- Count of READY slots among the table's slots (the kernel slot 1 and
the allocatable range `[PID_MIN, PID_MAX)`), by a linear scan starting at
index `i` over `n` slots. -/
def countReadyAux (status : Nat → PidStatus) : Nat → Nat → Nat
  | _, 0 => 0
  | i, n + 1 =>
    (if status i = READY then 1 else 0) + countReadyAux status (i + 1) n

/-- Number of slots of the table (indices `1 .. PID_MAX - 1`) whose status
is READY. -/
def readyCount (st : PidTable) : Nat :=
  countReadyAux st.status 1 (PID_MAX - 1)

/-- The heap resources allocated for a child during `proc_create` /
`sys_fork`: the proc structure (`kmalloc`), its name (`kstrdup`), its file
table (`ft_create`), its children array (`array_create`), the duplicated
trap frame (`kmalloc`), and the copied address space (`as_copy`). -/
inductive Res where
  | procObj
  | nameStr
  | fileTable
  | childrenArr
  | trapFrame
  | addrSpace
deriving DecidableEq, Repr

/-- Outcomes of the fallible external calls made during `proc_create` and
`sys_fork`: whether each allocation succeeds, and the return codes of
`as_copy` and `thread_fork` (0 = success). -/
structure ForkEnv where
  procAllocOk : Bool
  nameAllocOk : Bool
  ftAllocOk : Bool
  childrenAllocOk : Bool
  tfAllocOk : Bool
  asCopyRes : Int
  threadForkRes : Int
deriving DecidableEq, Repr

/-- Result of `proc_create`: whether a proc was returned (NULL return on
any failure), the resources allocated during the call, and the resources
freed before returning (in `kfree` call order). -/
structure CreateResult where
  ok : Bool
  allocated : List Res
  freed : List Res
deriving DecidableEq, Repr

/-- `proc_create(name)`: allocate the proc structure, the name copy, the
file table and the children array, in that order; on each failure free
everything allocated by the earlier steps (the children-array failure path
releases the file table with `kfree(proc->proc_ft)`, then the name, then
the struct) and return NULL. -/
def proc_create (e : ForkEnv) : CreateResult :=
  if !e.procAllocOk then ⟨false, [], []⟩
  else if !e.nameAllocOk then ⟨false, [.procObj], [.procObj]⟩
  else if !e.ftAllocOk then
    ⟨false, [.procObj, .nameStr], [.nameStr, .procObj]⟩
  else if !e.childrenAllocOk then
    ⟨false, [.procObj, .nameStr, .fileTable],
      [.fileTable, .nameStr, .procObj]⟩
  else ⟨true, [.procObj, .nameStr, .fileTable, .childrenArr], []⟩

/-- Resources allocated but never freed: what a call leaks. -/
def leakedOf (allocated freed : List Res) : List Res :=
  allocated.filter (fun r => !freed.contains r)

/-- Modelled from the spec: the "out of resources" error number `ENOMEM`
returned by `sys_fork` (the errno header is absent from src/; the exact
value is immaterial, only that it is nonzero). -/
def ENOMEM : Int := 3

/-- Outcome of `sys_fork`: a return to the caller with an error code (0 =
success), the value written through `retval0` (written as soon as the pid
is assigned, so it is present even when a later `thread_fork` fails), the
resulting pid table and parent children list, and the allocation/free
trace; or the table-full panic, or the undefined out-of-bounds write
inside `pidtable_add`. -/
inductive ForkOutcome where
  | ret (code : Int) (retval : Option Int) (st : PidTable)
      (children : List Nat) (allocated : List Res) (freed : List Res)
  | panicked
  | ub

/-- `sys_fork(tf, retval0)`: create the child via `proc_create` (ENOMEM on
NULL); `kmalloc` the trap frame, on failure `kfree(new_proc)` — freeing
only the struct, not its name, file table or children array; `as_copy` the
address space, on failure return the error **with no cleanup at all**
(the code's own comment reads "TODO: clean up if this fails"); share the
cwd reference; register the child with `pidtable_add` (the `-1` check
below it is unreachable: the full table panics inside `pidtable_add`, and
the out-of-bounds executions are undefined); write the child pid through
`retval0`; copy the file table and the trap frame; `thread_fork`, on
failure return the error with no unwinding; else return 0. -/
def sys_fork (e : ForkEnv) (st : PidTable) (curChildren : List Nat)
    (newTag : Nat) : ForkOutcome :=
  let c := proc_create e
  if !c.ok then ForkOutcome.ret ENOMEM none st curChildren c.allocated c.freed
  else if !e.tfAllocOk then
    ForkOutcome.ret ENOMEM none st curChildren c.allocated
      (c.freed ++ [.procObj])
  else
    let alloc1 := c.allocated ++ [.trapFrame]
    if e.asCopyRes ≠ 0 then
      ForkOutcome.ret e.asCopyRes none st curChildren alloc1 []
    else
      let alloc2 := alloc1 ++ [.addrSpace]
      match pidtable_add st curChildren newTag with
      | .fullPanic => ForkOutcome.panicked
      | .oobWrite => ForkOutcome.ub
      | .ok pid st' ch' =>
        if e.threadForkRes ≠ 0 then
          ForkOutcome.ret e.threadForkRes (some pid) st' ch' alloc2 []
        else ForkOutcome.ret 0 (some pid) st' ch' alloc2 []

def ForkOutcome.code? : ForkOutcome → Option Int
  | .ret c _ _ _ _ _ => some c
  | _ => none

def ForkOutcome.retval? : ForkOutcome → Option (Option Int)
  | .ret _ v _ _ _ _ => some v
  | _ => none

def ForkOutcome.state? : ForkOutcome → Option PidTable
  | .ret _ _ st _ _ _ => some st
  | _ => none

def ForkOutcome.children? : ForkOutcome → Option (List Nat)
  | .ret _ _ _ ch _ _ => some ch
  | _ => none

def ForkOutcome.allocated? : ForkOutcome → Option (List Res)
  | .ret _ _ _ _ a _ => some a
  | _ => none

def ForkOutcome.freed? : ForkOutcome → Option (List Res)
  | .ret _ _ _ _ _ f => some f
  | _ => none

def ForkOutcome.leaked? : ForkOutcome → Option (List Res)
  | .ret _ _ _ _ a f => some (leakedOf a f)
  | _ => none

/-- Pid-table states reachable under the table lock: the bootstrap state,
followed by any sequence of successful `pidtable_add` calls and
non-panicking `pidtable_exit` calls. -/
inductive Reachable : PidTable → Prop where
  | boot : Reachable pidtable_bootstrap
  | step_add {st : PidTable} {ch : List Nat} {tag pid : Nat}
      {st' : PidTable} {ch' : List Nat} : Reachable st →
      pidtable_add st ch tag = AddResult.ok pid st' ch' → Reachable st'
  | step_exit {st : PidTable} {curp p : ProcRef} {pch : List ProcRef}
      {c : Int} {d : ExitDone} : Reachable st →
      pidtable_exit st curp p pch c = some d → Reachable d.st

/-- Per-child disposition of the reaping walk as the specification states
it, used as the reference side of the refinement theorem for
`pidtable_update_children`: a RUNNING child is marked ORPHAN; a ZOMBIE
child has its slot freed (status READY, proc and waitcode cleared,
`available` incremented) and its process object destroyed (`proc_destroy`,
fatal for the kernel process); any other status is a fatal halt. -/
def childStepSpec (acc : PidTable × List Nat) (child : ProcRef) :
    Option (PidTable × List Nat) :=
  match acc.1.status child.pid with
  | PidStatus.RUNNING =>
    some
      ({ acc.1 with
          status := fun j =>
            if j = child.pid then PidStatus.ORPHAN else acc.1.status j },
        acc.2)
  | PidStatus.ZOMBIE =>
    if child.tag = kprocTag then none
    else
      some
        ({ acc.1 with
            available := acc.1.available + 1
            procs := fun j => if j = child.pid then none else acc.1.procs j
            status := fun j =>
              if j = child.pid then PidStatus.READY else acc.1.status j
            waitcode := fun j =>
              if j = child.pid then some 0 else acc.1.waitcode j },
          acc.2 ++ [child.tag])
  | _ => none

/-- The pid-table state after `k` successful `pidtable_add` calls starting
from bootstrap (the process registered in slot `i` is given pointer tag
`i`): slots `2 .. k+1` RUNNING, slots `k+2 .. PID_MAX-1` READY,
`pid_available = PID_MAX - 1 - k`, and `pid_next = k + 2` while slots
remain, else stuck at `PID_MAX - 1`.  Used to exhibit reachable states. -/
def stateAfter (k : Nat) : PidTable :=
  { procs := fun i =>
      if i = kprocPid then some kprocTag
      else if PID_MIN ≤ i ∧ i < k + 2 then some i
      else none
    status := fun i =>
      if i = kprocPid then PidStatus.RUNNING
      else if PID_MIN ≤ i ∧ i < k + 2 then PidStatus.RUNNING
      else if PID_MIN ≤ i ∧ i < PID_MAX then PidStatus.READY
      else PidStatus.UNINIT
    waitcode := fun i =>
      if i = kprocPid ∨ (PID_MIN ≤ i ∧ i < PID_MAX) then some 0 else none
    available := PID_MAX - 1 - k
    next :=
      if k + 2 < PID_MAX then Int.ofNat (k + 2)
      else Int.ofNat (PID_MAX - 1) }

theorem PidTable.ext' (a b : PidTable)
    (hp : ∀ i, a.procs i = b.procs i)
    (hs : ∀ i, a.status i = b.status i)
    (hw : ∀ i, a.waitcode i = b.waitcode i)
    (ha : a.available = b.available)
    (hn : a.next = b.next) : a = b := by
  cases a
  cases b
  simp only [PidTable.mk.injEq]
  exact ⟨funext hp, funext hs, funext hw, ha, hn⟩

/-! Characterization of the forward scan. -/

theorem findReadyAux_none (status : Nat → PidStatus) :
    ∀ (fuel i : Nat),
      (∀ j, i ≤ j → j < i + fuel → j < PID_MAX → status j ≠ READY) →
      findReadyAux status fuel i = none := by
  intro fuel
  induction fuel with
  | zero => intro i _; rfl
  | succ n ih =>
    intro i h
    unfold findReadyAux
    by_cases hi : i < PID_MAX
    · rw [if_pos hi, if_neg (h i (Nat.le_refl i) (by omega) hi)]
      exact ih (i + 1) fun j h1 h2 h3 => h j (by omega) (by omega) h3
    · rw [if_neg hi]

theorem findReadyAux_some (status : Nat → PidStatus) :
    ∀ (fuel i j : Nat), findReadyAux status fuel i = some j →
      i ≤ j ∧ j < PID_MAX ∧ status j = READY ∧
        ∀ k, i ≤ k → k < j → status k ≠ READY := by
  intro fuel
  induction fuel with
  | zero => intro i j h; exact absurd h (by simp [findReadyAux])
  | succ n ih =>
    intro i j h
    unfold findReadyAux at h
    by_cases hi : i < PID_MAX
    · rw [if_pos hi] at h
      by_cases hr : status i = READY
      · rw [if_pos hr] at h
        obtain rfl : i = j := by injection h
        exact ⟨Nat.le_refl i, hi, hr, fun k h1 h2 => by omega⟩
      · rw [if_neg hr] at h
        obtain ⟨h1, h2, h3, h4⟩ := ih (i + 1) j h
        refine ⟨by omega, h2, h3, fun k hk1 hk2 => ?_⟩
        rcases Nat.eq_or_lt_of_le hk1 with rfl | hk
        · exact hr
        · exact h4 k hk hk2
    · rw [if_neg hi] at h
      exact absurd h (by simp)

theorem findReadyAux_finds (status : Nat → PidStatus) :
    ∀ (fuel i j : Nat), i ≤ j → j < i + fuel → j < PID_MAX →
      status j = READY → (∀ k, i ≤ k → k < j → status k ≠ READY) →
      findReadyAux status fuel i = some j := by
  intro fuel
  induction fuel with
  | zero => intro i j h1 h2; omega
  | succ n ih =>
    intro i j h1 h2 h3 h4 h5
    unfold findReadyAux
    rw [if_pos (by omega : i < PID_MAX)]
    rcases Nat.eq_or_lt_of_le h1 with rfl | hij
    · rw [if_pos h4]
    · rw [if_neg (h5 i (Nat.le_refl i) hij)]
      exact ih (i + 1) j (by omega) (by omega) h3 h4
        fun k hk1 hk2 => h5 k (by omega) hk2

theorem findReadyFrom_none (status : Nat → PidStatus) (i : Nat)
    (h : ∀ j, i ≤ j → j < PID_MAX → status j ≠ READY) :
    findReadyFrom status i = none :=
  findReadyAux_none status (PID_MAX - i) i
    fun j h1 h2 h3 => h j h1 h3

theorem findReadyFrom_some (status : Nat → PidStatus) (i j : Nat)
    (h : findReadyFrom status i = some j) :
    i ≤ j ∧ j < PID_MAX ∧ status j = READY ∧
      ∀ k, i ≤ k → k < j → status k ≠ READY :=
  findReadyAux_some status (PID_MAX - i) i j h

theorem findReadyFrom_finds (status : Nat → PidStatus) (i j : Nat)
    (h1 : i ≤ j) (h2 : j < PID_MAX) (h3 : status j = READY)
    (h4 : ∀ k, i ≤ k → k < j → status k ≠ READY) :
    findReadyFrom status i = some j :=
  findReadyAux_finds status (PID_MAX - i) i j h1 (by omega) h2 h3 h4

/-! Inversion of a successful `pidtable_add`. -/

theorem pidtable_add_ok_spec {st : PidTable} {ch : List Nat} {tag pid : Nat}
    {st' : PidTable} {ch' : List Nat}
    (h : pidtable_add st ch tag = AddResult.ok pid st' ch') :
    st.next = Int.ofNat pid ∧ pid < PID_MAX ∧ 0 < st.available ∧
    ch' = ch ++ [tag] ∧
    st'.procs = (fun j => if j = pid then some tag else st.procs j) ∧
    st'.status = (fun j => if j = pid then RUNNING else st.status j) ∧
    st'.waitcode = (fun j => if j = pid then some 0 else st.waitcode j) ∧
    st'.available = st.available - 1 ∧
    ((st.available - 1 = 0 ∧ st'.next = -1) ∨
      (0 < st.available - 1 ∧
        ((∃ k, findReadyFrom st'.status pid = some k ∧
            st'.next = Int.ofNat k) ∨
          (findReadyFrom st'.status pid = none ∧ st'.next = st.next)))) := by
  unfold pidtable_add at h
  by_cases ha : st.available > 0
  · rw [if_pos ha] at h
    cases hn : st.next with
    | ofNat n =>
      rw [hn] at h
      dsimp only [] at h
      by_cases hlt : n < PID_MAX
      · rw [if_pos hlt] at h
        simp only [AddResult.ok.injEq] at h
        obtain ⟨rfl, hst, hch⟩ := h
        subst hch
        by_cases ha1 : st.available - 1 > 0
        · rw [if_pos ha1] at hst
          cases hf : findReadyFrom
              (fun j => if j = n then RUNNING else st.status j) n with
          | some k =>
            rw [hf] at hst
            subst hst
            refine ⟨rfl, hlt, ha, rfl, rfl, rfl, rfl, rfl, Or.inr ⟨ha1, ?_⟩⟩
            exact Or.inl ⟨k, hf, rfl⟩
          | none =>
            rw [hf] at hst
            subst hst
            exact ⟨rfl, hlt, ha, rfl, rfl, rfl, rfl, rfl,
              Or.inr ⟨ha1, Or.inr ⟨hf, rfl⟩⟩⟩
        · rw [if_neg ha1] at hst
          subst hst
          exact ⟨rfl, hlt, ha, rfl, rfl, rfl, rfl, rfl,
            Or.inl ⟨by omega, rfl⟩⟩
      · rw [if_neg hlt] at h
        exact absurd h (by simp)
    | negSucc m =>
      rw [hn] at h
      dsimp only [] at h
      exact absurd h (by simp)
  · rw [if_neg ha] at h
    exact absurd h (by simp)

/-! Neither `pidtable_exit` nor `pidtable_update_children` ever writes
`pid_next`. -/

theorem ucLoop_next (ch : List ProcRef) :
    ∀ (i : Nat) (st : PidTable) (ds : List Nat) (r : PidTable × List Nat),
      ucLoop ch i st ds = some r → r.1.next = st.next := by
  intro i
  induction i with
  | zero =>
    intro st ds r h
    unfold ucLoop at h
    injection h with h
    subst h
    rfl
  | succ i ih =>
    intro st ds r h
    unfold ucLoop at h
    cases hc : ch[i]? with
    | none => rw [hc] at h; exact absurd h (by simp)
    | some child =>
      rw [hc] at h
      dsimp only [] at h
      cases hs : st.status child.pid with
      | READY => rw [hs] at h; exact absurd h (by simp)
      | RUNNING =>
        rw [hs] at h
        dsimp only [] at h
        have hr := ih _ _ _ h
        exact hr
      | ZOMBIE =>
        rw [hs] at h
        dsimp only [] at h
        cases hd : proc_destroy child with
        | none => rw [hd] at h; exact absurd h (by simp)
        | some u =>
          rw [hd] at h
          dsimp only [] at h
          have hr := ih _ _ _ h
          exact hr
      | ORPHAN => rw [hs] at h; exact absurd h (by simp)
      | UNINIT => rw [hs] at h; exact absurd h (by simp)

theorem pidtable_update_children_next {st : PidTable} {ch : List ProcRef}
    {r : PidTable × List Nat}
    (h : pidtable_update_children st ch = some r) : r.1.next = st.next :=
  ucLoop_next ch ch.length st [] r h

theorem pidtable_exit_next {st : PidTable} {curp p : ProcRef}
    {pch : List ProcRef} {c : Int} {d : ExitDone}
    (h : pidtable_exit st curp p pch c = some d) : d.st.next = st.next := by
  unfold pidtable_exit at h
  cases hu : pidtable_update_children st pch with
  | none => rw [hu] at h; exact absurd h (by simp)
  | some r =>
    rw [hu] at h
    dsimp only [] at h
    have hnext : r.1.next = st.next := pidtable_update_children_next hu
    cases hs : r.1.status p.pid with
    | READY => rw [hs] at h; exact absurd h (by simp)
    | RUNNING =>
      rw [hs] at h
      injection h with h
      subst h
      exact hnext
    | ZOMBIE => rw [hs] at h; exact absurd h (by simp)
    | ORPHAN =>
      rw [hs] at h
      cases hd : proc_destroy curp with
      | none => rw [hd] at h; exact absurd h (by simp)
      | some u =>
        rw [hd] at h
        injection h with h
        subst h
        exact hnext
    | UNINIT => rw [hs] at h; exact absurd h (by simp)

/-- Invariant on the free-slot hint: either the full sentinel `-1`, or an
index in the allocatable range `[PID_MIN, PID_MAX)`. -/
def nextInv (st : PidTable) : Prop :=
  st.next = -1 ∨
    ∃ n : Nat, st.next = Int.ofNat n ∧ PID_MIN ≤ n ∧ n < PID_MAX

theorem reachable_nextInv {st : PidTable} (h : Reachable st) : nextInv st := by
  induction h with
  | boot => exact Or.inr ⟨PID_MIN, rfl, Nat.le_refl _, by decide⟩
  | @step_add st0 ch tag pid st' ch' hr hadd ih =>
    obtain ⟨hnext, hlt, _, _, _, _, _, _, hnx⟩ := pidtable_add_ok_spec hadd
    have hpidmin : PID_MIN ≤ pid := by
      rcases ih with hbad | ⟨n, hn, hmin, _⟩
      · rw [hnext] at hbad
        exact absurd hbad (by simp [Int.ofNat_eq_natCast])
      · rw [hnext] at hn
        simp only [Int.ofNat_eq_natCast, Nat.cast_inj] at hn
        omega
    rcases hnx with ⟨_, h1⟩ | ⟨_, hcase⟩
    · exact Or.inl h1
    · rcases hcase with ⟨k, hfind, h1⟩ | ⟨_, h1⟩
      · obtain ⟨hk1, hk2, _, _⟩ := findReadyFrom_some _ _ _ hfind
        exact Or.inr ⟨k, h1, by omega, hk2⟩
      · exact Or.inr ⟨pid, h1.trans hnext, hpidmin, hlt⟩
  | @step_exit st0 curp p pch c d hr hexit ih =>
    have hnext := pidtable_exit_next hexit
    rcases ih with h1 | ⟨n, hn, hmin, hmax⟩
    · exact Or.inl (hnext.trans h1)
    · exact Or.inr ⟨n, hnext.trans hn, hmin, hmax⟩

/-! Counting READY slots. -/

theorem countReadyAux_all_ready (status : Nat → PidStatus) :
    ∀ (n i : Nat),
      (∀ j, i ≤ j → j < i + n → status j = READY) →
      countReadyAux status i n = n := by
  intro n
  induction n with
  | zero => intro i _; rfl
  | succ m ih =>
    intro i h
    unfold countReadyAux
    rw [if_pos (h i (Nat.le_refl i) (by omega))]
    rw [ih (i + 1) fun j h1 h2 => h j (by omega) (by omega)]
    omega

theorem countReadyAux_none_ready (status : Nat → PidStatus) :
    ∀ (n i : Nat),
      (∀ j, i ≤ j → j < i + n → status j ≠ READY) →
      countReadyAux status i n = 0 := by
  intro n
  induction n with
  | zero => intro i _; rfl
  | succ m ih =>
    intro i h
    unfold countReadyAux
    rw [if_neg (h i (Nat.le_refl i) (by omega))]
    rw [ih (i + 1) fun j h1 h2 => h j (by omega) (by omega)]

theorem countReadyAux_step (status : Nat → PidStatus) (i n : Nat) :
    countReadyAux status i (n + 1) =
      (if status i = READY then 1 else 0) + countReadyAux status (i + 1) n :=
  rfl

/-! Claim theorems. -/

/-- C8: pid 1 is reserved for the kernel process.  In every reachable
table state, a pid returned by a successful `pidtable_add` lies in
`[PID_MIN, PID_MAX)` — in particular it is never 1 — and `proc_destroy`
on the kernel process is a fatal assertion, so the kernel process is never
destroyed. -/
theorem pidtable_add_pid_range_and_kproc_never_destroyed :
    (∀ (st : PidTable) (ch : List Nat) (tag pid : Nat), Reachable st →
      (pidtable_add st ch tag).pid? = some pid →
      PID_MIN ≤ pid ∧ pid < PID_MAX ∧ pid ≠ 1) ∧
    proc_destroy kproc = none := by
  constructor
  · intro st ch tag pid hr hpid
    cases hadd : pidtable_add st ch tag with
    | ok p st' ch' =>
      rw [hadd] at hpid
      simp only [AddResult.pid?, Option.some.injEq] at hpid
      subst hpid
      obtain ⟨hnext, hlt, _⟩ := pidtable_add_ok_spec hadd
      rcases reachable_nextInv hr with hbad | ⟨n, hn, hmin, _⟩
      · rw [hnext] at hbad
        exact absurd hbad (by simp [Int.ofNat_eq_natCast])
      · rw [hnext] at hn
        simp only [Int.ofNat_eq_natCast, Nat.cast_inj] at hn
        have hm2 : PID_MIN = 2 := rfl
        omega
    | fullPanic => rw [hadd] at hpid; exact absurd hpid (by simp [AddResult.pid?])
    | oobWrite => rw [hadd] at hpid; exact absurd hpid (by simp [AddResult.pid?])
  · rfl

theorem pidtable_add_pid_range_and_kproc_never_destroyed_witness :
    PID_MIN ≤ 2 ∧ 2 < PID_MAX ∧ 2 ≠ 1 :=
  pidtable_add_pid_range_and_kproc_never_destroyed.1 pidtable_bootstrap [] 5 2
    Reachable.boot (by decide)

/-- C10: `sys_waitpid` validates nothing about its pid argument: for every
pid — out of range, READY, unrelated to the caller — its behaviour is
determined solely by the slot's status: it waits (blocks) while the status
is not ZOMBIE, and when the status is ZOMBIE it returns 0, storing a value
through the result pointer only when that pointer is non-NULL. -/
theorem sys_waitpid_no_validation :
    ∀ (st : PidTable) (pid : Nat) (retvalNull : Bool),
      (st.status pid ≠ PidStatus.ZOMBIE →
        sys_waitpid st pid retvalNull = WaitOutcome.blocked) ∧
      (st.status pid = PidStatus.ZOMBIE →
        sys_waitpid st pid retvalNull =
          WaitOutcome.returned 0
            (if retvalNull then none
             else some (statusToInt PidStatus.ZOMBIE))) := by
  intro st pid b
  constructor
  · intro h
    unfold sys_waitpid
    rw [if_neg h]
  · intro h
    unfold sys_waitpid
    rw [h, if_pos rfl]

theorem sys_waitpid_no_validation_witness :
    (sys_waitpid pidtable_bootstrap 40000 false = WaitOutcome.blocked) ∧
    (sys_waitpid pidtable_bootstrap 5 false = WaitOutcome.blocked) ∧
    (sys_waitpid
        { pidtable_bootstrap with
          status := fun i =>
            if i = 2 then PidStatus.ZOMBIE else pidtable_bootstrap.status i }
        2 true =
      WaitOutcome.returned 0 none) :=
  ⟨(sys_waitpid_no_validation pidtable_bootstrap 40000 false).1 (by decide),
    (sys_waitpid_no_validation pidtable_bootstrap 5 false).1 (by decide),
    (sys_waitpid_no_validation _ 2 true).2 (by decide)⟩

/-- C1 (bug in the code): after a registered process (pid 2) exits with
waitcode 7, the slot is ZOMBIE and the waitcode 7 is recorded, yet
`sys_waitpid(2)` stores `statusToInt ZOMBIE = 2` — the loop's local
`status` variable, not `pid_waitcode[pid]` — through the result pointer;
with waitcode 9 it stores the same value.  The value returned through
`retval0` is therefore independent of the recorded waitcode, contradicting
the claim that `waitpid` returns the recorded waitcode (the
"returns only after ZOMBIE" half does hold: see
`sys_waitpid_no_validation`). -/
theorem sys_waitpid_returns_status_constant_not_waitcode :
    ((pidtable_add pidtable_bootstrap [] 5).state?.bind fun stA =>
        (pidtable_exit stA ⟨5, 2⟩ ⟨5, 2⟩ [] 7).map fun d =>
          (d.st.status 2, d.st.waitcode 2, sys_waitpid d.st 2 false)) =
      some (PidStatus.ZOMBIE, some 7, WaitOutcome.returned 0 (some 2)) ∧
    ((pidtable_add pidtable_bootstrap [] 5).state?.bind fun stA =>
        (pidtable_exit stA ⟨5, 2⟩ ⟨5, 2⟩ [] 9).map fun d =>
          sys_waitpid d.st 2 false) =
      some (WaitOutcome.returned 0 (some 2)) ∧
    statusToInt PidStatus.ZOMBIE = 2 ∧ (2 : Int) ≠ 7 ∧ (2 : Int) ≠ 9 :=
  ⟨by decide, by decide, rfl, by decide, by decide⟩

/-- C4 (bug in the code): immediately after `pidtable_bootstrap` the
`pid_available` counter is `PID_MAX - 1 = 32766`, but only the
`PID_MAX - PID_MIN = 32765` slots `2 .. PID_MAX-1` are READY (slot 1 is
the RUNNING kernel slot), so `available` does not equal the number of
READY slots — it is off by one for any allocatable range that excludes
the reserved kernel pid. -/
theorem pidtable_bootstrap_available_off_by_one :
    readyCount pidtable_bootstrap = PID_MAX - PID_MIN ∧
    pidtable_bootstrap.available = PID_MAX - 1 ∧
    readyCount pidtable_bootstrap ≠ pidtable_bootstrap.available := by
  have hP : PID_MAX = 32767 := rfl
  have hM : PID_MIN = 2 := rfl
  have hc : countReadyAux pidtable_bootstrap.status (1 + 1) (PID_MAX - 2) =
      PID_MAX - 2 :=
    countReadyAux_all_ready pidtable_bootstrap.status (PID_MAX - 2) (1 + 1)
      (fun j hj1 hj2 => by
        simp only [pidtable_bootstrap, kprocPid]
        rw [if_neg (by omega), if_pos (by constructor <;> omega)])
  have hcount : readyCount pidtable_bootstrap = PID_MAX - PID_MIN := by
    unfold readyCount
    have h1 : PID_MAX - 1 = (PID_MAX - 2) + 1 := by omega
    rw [h1, countReadyAux_step]
    rw [if_neg (by simp [pidtable_bootstrap, kprocPid])]
    omega
  have havail : pidtable_bootstrap.available = PID_MAX - 1 := rfl
  exact ⟨hcount, havail, by rw [hcount, havail]; omega⟩

/-- C6 (bug in the code): when `as_copy` fails in `sys_fork` — after the
child object and trap frame were allocated — the error is returned with no
cleanup at all: child object, name, file table, children list and trap
frame all leak.  (The trap-frame-allocation failure path is also shown: it
frees only the proc struct via `kfree(new_proc)`, leaking the name, file
table and children list.)  This contradicts the claim that every piece of
the partially constructed child is released on failures before
registration. -/
theorem sys_fork_pre_registration_failure_leaks :
    (sys_fork ⟨true, true, true, true, true, ENOMEM, 0⟩
        pidtable_bootstrap [] 5).code? = some ENOMEM ∧
    (sys_fork ⟨true, true, true, true, true, ENOMEM, 0⟩
        pidtable_bootstrap [] 5).leaked? =
      some [Res.procObj, Res.nameStr, Res.fileTable, Res.childrenArr,
        Res.trapFrame] ∧
    (sys_fork ⟨true, true, true, true, false, 0, 0⟩
        pidtable_bootstrap [] 5).code? = some ENOMEM ∧
    (sys_fork ⟨true, true, true, true, false, 0, 0⟩
        pidtable_bootstrap [] 5).leaked? =
      some [Res.nameStr, Res.fileTable, Res.childrenArr] := by
  refine ⟨by decide, by decide, by decide, by decide⟩

/-- C7: every failing `proc_create` — whichever of the four allocation
steps fails first — returns NULL and has freed everything allocated by the
earlier steps of that call: nothing leaks. -/
theorem proc_create_failure_releases_everything :
    ∀ e : ForkEnv,
      (e.procAllocOk = false ∨ e.nameAllocOk = false ∨
        e.ftAllocOk = false ∨ e.childrenAllocOk = false) →
      (proc_create e).ok = false ∧
      leakedOf (proc_create e).allocated (proc_create e).freed = [] := by
  intro e h
  rcases e with ⟨pa, na, fa, ca, tf, ar, tr⟩
  cases pa <;> cases na <;> cases fa <;> cases ca <;>
    first
      | exact ⟨rfl, rfl⟩
      | simp at h

theorem proc_create_failure_releases_everything_witness :
    (proc_create ⟨true, true, false, true, true, 0, 0⟩).ok = false ∧
    leakedOf (proc_create ⟨true, true, false, true, true, 0, 0⟩).allocated
      (proc_create ⟨true, true, false, true, true, 0, 0⟩).freed = [] :=
  proc_create_failure_releases_everything ⟨true, true, false, true, true, 0, 0⟩
    (Or.inr (Or.inr (Or.inl rfl)))

/-- C9: when `thread_fork` fails after the child has been registered,
`sys_fork` returns that error while the child stays registered with status
RUNNING in the table returned by `pidtable_add`, stays in the parent's
children list, the pid was already written through `retval0`, and nothing
is unwound: no resource allocated for the child is freed. -/
theorem sys_fork_thread_fork_failure_no_unwind :
    ∀ (e : ForkEnv) (st : PidTable) (ch : List Nat) (tag pid : Nat),
      e.procAllocOk = true → e.nameAllocOk = true → e.ftAllocOk = true →
      e.childrenAllocOk = true → e.tfAllocOk = true → e.asCopyRes = 0 →
      e.threadForkRes ≠ 0 →
      (pidtable_add st ch tag).pid? = some pid →
      (sys_fork e st ch tag).code? = some e.threadForkRes ∧
      (sys_fork e st ch tag).retval? = some (some (pid : Int)) ∧
      (sys_fork e st ch tag).freed? = some [] ∧
      ((sys_fork e st ch tag).state?.map fun s => s.status pid) =
        some PidStatus.RUNNING ∧
      ((sys_fork e st ch tag).children?.map fun l => l.contains tag) =
        some true ∧
      (sys_fork e st ch tag).allocated? =
        some ([Res.procObj, Res.nameStr, Res.fileTable, Res.childrenArr] ++
          [Res.trapFrame] ++ [Res.addrSpace]) := by
  intro e st ch tag pid h1 h2 h3 h4 h5 h6 h8 hpid
  rcases e with ⟨pa, na, fa, ca, tf, ar, tr⟩
  simp only at h1 h2 h3 h4 h5 h6 h8
  subst h1; subst h2; subst h3; subst h4; subst h5; subst h6
  cases hadd : pidtable_add st ch tag with
  | ok p st' ch' =>
    rw [hadd] at hpid
    simp only [AddResult.pid?, Option.some.injEq] at hpid
    subst hpid
    obtain ⟨_, _, _, hch, _, hstatus, _, _, _⟩ := pidtable_add_ok_spec hadd
    have hfork :
        sys_fork ⟨true, true, true, true, true, 0, tr⟩ st ch tag =
          ForkOutcome.ret tr (some (p : Int)) st' ch'
            ([Res.procObj, Res.nameStr, Res.fileTable, Res.childrenArr] ++
              [Res.trapFrame] ++ [Res.addrSpace]) [] := by
      unfold sys_fork
      rw [hadd]
      simp [proc_create, h8]
    rw [hfork]
    refine ⟨rfl, rfl, rfl, ?_, ?_, rfl⟩
    · simp [ForkOutcome.state?, hstatus]
    · subst hch
      simp [ForkOutcome.children?, List.contains, List.elem_eq_mem]
  | fullPanic =>
    rw [hadd] at hpid
    exact absurd hpid (by simp [AddResult.pid?])
  | oobWrite =>
    rw [hadd] at hpid
    exact absurd hpid (by simp [AddResult.pid?])

theorem sys_fork_thread_fork_failure_no_unwind_witness :
    (sys_fork ⟨true, true, true, true, true, 0, 7⟩ pidtable_bootstrap []
        9).code? = some 7 ∧
    (sys_fork ⟨true, true, true, true, true, 0, 7⟩ pidtable_bootstrap []
        9).freed? = some [] ∧
    ((sys_fork ⟨true, true, true, true, true, 0, 7⟩ pidtable_bootstrap []
          9).state?.map fun s => s.status 2) = some PidStatus.RUNNING := by
  have h := sys_fork_thread_fork_failure_no_unwind
    ⟨true, true, true, true, true, 0, 7⟩ pidtable_bootstrap [] 9 2
    rfl rfl rfl rfl rfl rfl (by decide) (by decide)
  exact ⟨h.1, h.2.2.1, h.2.2.2.1⟩

/-- C2: `pidtable_exit` (called by `sys__exit` with `curp = p = curproc`)
first runs `pidtable_update_children`; a panic there propagates.  Then, on
the process's own slot: if RUNNING it becomes ZOMBIE with the waitcode
recorded; if ORPHAN the slot is freed (READY, proc and waitcode cleared,
`available` incremented) and the process object is destroyed; any other
status is a fatal halt.  In the non-fatal cases every other slot is
untouched, the condition variable is broadcast unconditionally and
`thread_exit` is reached, so the call never returns. -/
theorem pidtable_exit_protocol :
    ∀ (st : PidTable) (p : ProcRef) (pch : List ProcRef) (c : Int),
      (pidtable_update_children st pch = none →
        pidtable_exit st p p pch c = none) ∧
      ∀ (st1 : PidTable) (ds : List Nat),
        pidtable_update_children st pch = some (st1, ds) →
        (st1.status p.pid = PidStatus.RUNNING →
          ∃ d, pidtable_exit st p p pch c = some d ∧
            d.st.status p.pid = PidStatus.ZOMBIE ∧
            d.st.waitcode p.pid = some c ∧
            d.st.available = st1.available ∧
            d.st.procs p.pid = st1.procs p.pid ∧
            (∀ q, q ≠ p.pid → d.st.status q = st1.status q ∧
              d.st.waitcode q = st1.waitcode q ∧
              d.st.procs q = st1.procs q) ∧
            d.destroyed = ds ∧ d.broadcast = true ∧
            d.threadExited = true) ∧
        (st1.status p.pid = PidStatus.ORPHAN → p.tag ≠ kprocTag →
          ∃ d, pidtable_exit st p p pch c = some d ∧
            d.st.status p.pid = PidStatus.READY ∧
            d.st.procs p.pid = none ∧
            d.st.waitcode p.pid = some 0 ∧
            d.st.available = st1.available + 1 ∧
            (∀ q, q ≠ p.pid → d.st.status q = st1.status q ∧
              d.st.waitcode q = st1.waitcode q ∧
              d.st.procs q = st1.procs q) ∧
            d.destroyed = ds ++ [p.tag] ∧ d.broadcast = true ∧
            d.threadExited = true) ∧
        (st1.status p.pid ≠ PidStatus.RUNNING →
          st1.status p.pid ≠ PidStatus.ORPHAN →
          pidtable_exit st p p pch c = none) := by
  intro st p pch c
  constructor
  · intro hnone
    unfold pidtable_exit
    rw [hnone]
  · intro st1 ds huc
    refine ⟨?_, ?_, ?_⟩
    · intro hrun
      have hx : pidtable_exit st p p pch c =
          some
            { st :=
                { st1 with
                  status := fun j =>
                    if j = p.pid then PidStatus.ZOMBIE else st1.status j
                  waitcode := fun j =>
                    if j = p.pid then some c else st1.waitcode j }
              destroyed := ds
              broadcast := true
              threadExited := true } := by
        unfold pidtable_exit
        rw [huc]
        dsimp only []
        rw [hrun]
      refine ⟨_, hx, by simp, by simp, rfl, by simp, ?_, rfl, rfl, rfl⟩
      intro q hq
      exact ⟨by simp [hq], by simp [hq], rfl⟩
    · intro horp htag
      have hx : pidtable_exit st p p pch c =
          some
            { st := freeSlot st1 p.pid
              destroyed := ds ++ [p.tag]
              broadcast := true
              threadExited := true } := by
        unfold pidtable_exit
        rw [huc]
        dsimp only []
        rw [horp]
        dsimp only []
        unfold proc_destroy
        rw [if_neg htag]
      refine ⟨_, hx, by simp [freeSlot], by simp [freeSlot],
        by simp [freeSlot], rfl, ?_, rfl, rfl, rfl⟩
      intro q hq
      exact ⟨by simp [freeSlot, hq], by simp [freeSlot, hq],
        by simp [freeSlot, hq]⟩
    · intro hnr hno
      unfold pidtable_exit
      rw [huc]
      dsimp only []
      cases hs : st1.status p.pid with
      | READY => rfl
      | RUNNING => exact absurd hs hnr
      | ZOMBIE => rfl
      | ORPHAN => exact absurd hs hno
      | UNINIT => rfl

theorem pidtable_exit_protocol_witness :
    ((pidtable_exit pidtable_bootstrap ⟨5, 1⟩ ⟨5, 1⟩ [] 7).map fun d =>
        (d.st.status 1, d.st.waitcode 1, d.st.available, d.destroyed,
          d.broadcast, d.threadExited)) =
      some (PidStatus.ZOMBIE, some 7, PID_MAX - 1, [], true, true) ∧
    pidtable_exit pidtable_bootstrap ⟨6, 3⟩ ⟨6, 3⟩ [] 7 = none := by
  constructor
  · obtain ⟨d, hd, h1, h2, h3, h4, h5, h6, h7, h8⟩ :=
      ((pidtable_exit_protocol pidtable_bootstrap ⟨5, 1⟩ [] 7).2
        pidtable_bootstrap [] rfl).1 (by decide)
    rw [hd]
    simp only [Option.map_some']
    rw [h1, h2, h3, h6, h7, h8]
    exact rfl
  · exact (((pidtable_exit_protocol pidtable_bootstrap ⟨6, 3⟩ [] 7).2
      pidtable_bootstrap [] rfl).2.2) (by decide) (by decide)

/-! The downward walk of `pidtable_update_children` only reads indices
below its counter, so appending an element leaves it unchanged. -/

theorem ucLoop_append_last (a : ProcRef) (cs : List ProcRef) :
    ∀ (i : Nat) (st : PidTable) (ds : List Nat), i ≤ cs.length →
      ucLoop (cs ++ [a]) i st ds = ucLoop cs i st ds := by
  intro i
  induction i with
  | zero => intro st ds _; rfl
  | succ i ih =>
    intro st ds hle
    have hlt : i < cs.length := by omega
    unfold ucLoop
    rw [List.getElem?_append_left hlt]
    cases hc : cs[i]? with
    | none => rfl
    | some child =>
      dsimp only []
      cases hs : st.status child.pid with
      | READY => rfl
      | RUNNING =>
        dsimp only []
        exact ih
          { st with
            status := fun j =>
              if j = child.pid then PidStatus.ORPHAN else st.status j }
          ds (Nat.le_of_succ_le hle)
      | ZOMBIE =>
        dsimp only []
        cases hd : proc_destroy child with
        | none => rfl
        | some u =>
          dsimp only []
          exact ih (freeSlot st child.pid) (ds ++ [child.tag])
            (Nat.le_of_succ_le hle)
      | ORPHAN => rfl
      | UNINIT => rfl

/-! Branch equations for the reference step function. -/

theorem childStepSpec_ready {st : PidTable} {ds : List Nat} {a : ProcRef}
    (h : st.status a.pid = PidStatus.READY) :
    childStepSpec (st, ds) a = none := by
  unfold childStepSpec
  dsimp only []
  rw [h]

theorem childStepSpec_running {st : PidTable} {ds : List Nat} {a : ProcRef}
    (h : st.status a.pid = PidStatus.RUNNING) :
    childStepSpec (st, ds) a =
      some
        ({ st with
            status := fun j =>
              if j = a.pid then PidStatus.ORPHAN else st.status j }, ds) := by
  unfold childStepSpec
  dsimp only []
  rw [h]

theorem childStepSpec_zombie_kproc {st : PidTable} {ds : List Nat}
    {a : ProcRef} (h : st.status a.pid = PidStatus.ZOMBIE)
    (htag : a.tag = kprocTag) : childStepSpec (st, ds) a = none := by
  unfold childStepSpec
  dsimp only []
  rw [h]
  dsimp only []
  rw [if_pos htag]

theorem childStepSpec_zombie {st : PidTable} {ds : List Nat} {a : ProcRef}
    (h : st.status a.pid = PidStatus.ZOMBIE) (htag : ¬a.tag = kprocTag) :
    childStepSpec (st, ds) a = some (freeSlot st a.pid, ds ++ [a.tag]) := by
  unfold childStepSpec
  dsimp only []
  rw [h]
  dsimp only []
  rw [if_neg htag]
  rfl

theorem childStepSpec_orphan {st : PidTable} {ds : List Nat} {a : ProcRef}
    (h : st.status a.pid = PidStatus.ORPHAN) :
    childStepSpec (st, ds) a = none := by
  unfold childStepSpec
  dsimp only []
  rw [h]

theorem childStepSpec_uninit {st : PidTable} {ds : List Nat} {a : ProcRef}
    (h : st.status a.pid = PidStatus.UNINIT) :
    childStepSpec (st, ds) a = none := by
  unfold childStepSpec
  dsimp only []
  rw [h]

theorem ucLoop_eq_fold :
    ∀ (ch : List ProcRef) (st : PidTable) (ds : List Nat),
      ucLoop ch ch.length st ds =
        List.foldlM childStepSpec (st, ds) ch.reverse := by
  intro ch
  induction ch using List.reverseRecOn with
  | nil => intro st ds; rfl
  | append_singleton c a ih =>
    intro st ds
    have hlen : (c ++ [a]).length = c.length + 1 := by simp
    have hget : (c ++ [a])[c.length]? = some a := by simp
    have hrev : (c ++ [a]).reverse = a :: c.reverse := by simp
    rw [hlen, hrev, List.foldlM_cons]
    unfold ucLoop
    rw [hget]
    dsimp only []
    cases hs : st.status a.pid with
    | READY =>
      rw [childStepSpec_ready hs]
      rfl
    | RUNNING =>
      rw [childStepSpec_running hs]
      dsimp only []
      rw [ucLoop_append_last a c c.length _ _ (Nat.le_refl _), ih]
      rfl
    | ZOMBIE =>
      dsimp only []
      unfold proc_destroy
      by_cases htag : a.tag = kprocTag
      · rw [if_pos htag, childStepSpec_zombie_kproc hs htag]
        rfl
      · rw [if_neg htag, childStepSpec_zombie hs htag]
        dsimp only []
        rw [ucLoop_append_last a c c.length _ _ (Nat.le_refl _), ih]
        rfl
    | ORPHAN =>
      rw [childStepSpec_orphan hs]
      rfl
    | UNINIT =>
      rw [childStepSpec_uninit hs]
      rfl

/-- C3: `pidtable_update_children` visits the children in reverse index
order — it equals the monadic fold of the per-child disposition
`childStepSpec` over the reversed children list — and per child a RUNNING
slot becomes ORPHAN, a ZOMBIE slot is freed (READY, cleared fields,
`available` incremented) and the child's process object destroyed, and any
other status is a fatal halt. -/
theorem pidtable_update_children_reverse_fold :
    ∀ (st : PidTable) (ch : List ProcRef),
      pidtable_update_children st ch =
        List.foldlM childStepSpec (st, ([] : List Nat)) ch.reverse :=
  fun st ch => ucLoop_eq_fold ch st []

/-! The filling trajectory: `stateAfter k` is the table after `k`
successful allocations from bootstrap. -/

theorem stateAfter_zero : stateAfter 0 = pidtable_bootstrap := by
  have hM : PID_MIN = 2 := rfl
  apply PidTable.ext'
  · intro i
    show (if i = kprocPid then some kprocTag
      else if PID_MIN ≤ i ∧ i < 0 + 2 then some i else none) =
      (if i = kprocPid then some kprocTag else none)
    by_cases h1 : i = kprocPid
    · rw [if_pos h1, if_pos h1]
    · rw [if_neg h1, if_neg h1, if_neg (by omega)]
  · intro i
    show (if i = kprocPid then RUNNING
      else if PID_MIN ≤ i ∧ i < 0 + 2 then RUNNING
      else if PID_MIN ≤ i ∧ i < PID_MAX then READY else UNINIT) =
      (if i = kprocPid then RUNNING
      else if PID_MIN ≤ i ∧ i < PID_MAX then READY else UNINIT)
    by_cases h1 : i = kprocPid
    · rw [if_pos h1, if_pos h1]
    · rw [if_neg h1, if_neg h1, if_neg (by omega)]
  · intro i
    rfl
  · rfl
  · show (if 0 + 2 < PID_MAX then Int.ofNat (0 + 2)
      else Int.ofNat (PID_MAX - 1)) = Int.ofNat PID_MIN
    rw [if_pos (by decide)]
    rfl

theorem stateAfter_add (k : Nat) (h : k + 2 < PID_MAX) (ch : List Nat) :
    pidtable_add (stateAfter k) ch (k + 2) =
      AddResult.ok (k + 2) (stateAfter (k + 1)) (ch ++ [k + 2]) := by
  have hM : PID_MIN = 2 := rfl
  have hK : kprocPid = 1 := rfl
  have hT : kprocTag = 0 := rfl
  have hav : (stateAfter k).available = PID_MAX - 1 - k := rfl
  have hnext : (stateAfter k).next = Int.ofNat (k + 2) := by
    show (if k + 2 < PID_MAX then Int.ofNat (k + 2)
      else Int.ofNat (PID_MAX - 1)) = Int.ofNat (k + 2)
    rw [if_pos h]
  have hstat : ∀ j, (stateAfter k).status j =
      (if j = 1 then RUNNING
       else if 2 ≤ j ∧ j < k + 2 then RUNNING
       else if 2 ≤ j ∧ j < PID_MAX then READY else UNINIT) :=
    fun j => rfl
  unfold pidtable_add
  rw [if_pos (show (stateAfter k).available > 0 by rw [hav]; omega)]
  rw [hnext]
  dsimp only []
  rw [if_pos h]
  have hav1 : (stateAfter k).available - 1 > 0 := by rw [hav]; omega
  rw [if_pos hav1]
  by_cases hk3 : k + 3 < PID_MAX
  · have hfind : findReadyFrom
        (fun j => if j = k + 2 then RUNNING else (stateAfter k).status j)
        (k + 2) = some (k + 3) := by
      apply findReadyFrom_finds _ _ _ (by omega) hk3
      · dsimp only []
        rw [if_neg (by omega), hstat]
        rw [if_neg (by omega), if_neg (by omega), if_pos ⟨by omega, hk3⟩]
      · intro m hm1 hm2
        have hm : m = k + 2 := by omega
        subst hm
        rw [if_pos rfl]
        simp
    rw [hfind]
    dsimp only []
    congr 1
    apply PidTable.ext'
    · intro i
      show (if i = k + 2 then some (k + 2) else (stateAfter k).procs i) =
        (stateAfter (k + 1)).procs i
      show (if i = k + 2 then some (k + 2)
        else if i = kprocPid then some kprocTag
        else if PID_MIN ≤ i ∧ i < k + 2 then some i else none) =
        (if i = kprocPid then some kprocTag
        else if PID_MIN ≤ i ∧ i < k + 1 + 2 then some i else none)
      split_ifs <;> first | rfl | (exfalso; omega) | (congr 1; omega)
    · intro i
      show (if i = k + 2 then RUNNING else (stateAfter k).status i) =
        (stateAfter (k + 1)).status i
      rw [hstat]
      show (if i = k + 2 then RUNNING
        else if i = 1 then RUNNING
        else if 2 ≤ i ∧ i < k + 2 then RUNNING
        else if 2 ≤ i ∧ i < PID_MAX then READY else UNINIT) =
        (if i = kprocPid then RUNNING
        else if PID_MIN ≤ i ∧ i < k + 1 + 2 then RUNNING
        else if PID_MIN ≤ i ∧ i < PID_MAX then READY else UNINIT)
      split_ifs <;> first | rfl | (exfalso; omega)
    · intro i
      show (if i = k + 2 then some 0 else (stateAfter k).waitcode i) =
        (stateAfter (k + 1)).waitcode i
      show (if i = k + 2 then some (0 : Int)
        else if i = kprocPid ∨ (PID_MIN ≤ i ∧ i < PID_MAX) then some 0
        else none) =
        (if i = kprocPid ∨ (PID_MIN ≤ i ∧ i < PID_MAX) then some 0 else none)
      split_ifs <;> first | rfl | (exfalso; omega)
    · show (stateAfter k).available - 1 = (stateAfter (k + 1)).available
      rw [hav]
      show PID_MAX - 1 - k - 1 = PID_MAX - 1 - (k + 1)
      omega
    · show Int.ofNat (k + 3) = (stateAfter (k + 1)).next
      show Int.ofNat (k + 3) =
        (if k + 1 + 2 < PID_MAX then Int.ofNat (k + 1 + 2)
         else Int.ofNat (PID_MAX - 1))
      rw [if_pos (by omega)]
  · have hfind : findReadyFrom
        (fun j => if j = k + 2 then RUNNING else (stateAfter k).status j)
        (k + 2) = none := by
      apply findReadyFrom_none
      intro j hj1 hj2
      have hj : j = k + 2 := by omega
      subst hj
      rw [if_pos rfl]
      simp
    rw [hfind]
    dsimp only []
    congr 1
    apply PidTable.ext'
    · intro i
      show (if i = k + 2 then some (k + 2) else (stateAfter k).procs i) =
        (stateAfter (k + 1)).procs i
      show (if i = k + 2 then some (k + 2)
        else if i = kprocPid then some kprocTag
        else if PID_MIN ≤ i ∧ i < k + 2 then some i else none) =
        (if i = kprocPid then some kprocTag
        else if PID_MIN ≤ i ∧ i < k + 1 + 2 then some i else none)
      split_ifs <;> first | rfl | (exfalso; omega) | (congr 1; omega)
    · intro i
      show (if i = k + 2 then RUNNING else (stateAfter k).status i) =
        (stateAfter (k + 1)).status i
      rw [hstat]
      show (if i = k + 2 then RUNNING
        else if i = 1 then RUNNING
        else if 2 ≤ i ∧ i < k + 2 then RUNNING
        else if 2 ≤ i ∧ i < PID_MAX then READY else UNINIT) =
        (if i = kprocPid then RUNNING
        else if PID_MIN ≤ i ∧ i < k + 1 + 2 then RUNNING
        else if PID_MIN ≤ i ∧ i < PID_MAX then READY else UNINIT)
      split_ifs <;> first | rfl | (exfalso; omega)
    · intro i
      show (if i = k + 2 then some 0 else (stateAfter k).waitcode i) =
        (stateAfter (k + 1)).waitcode i
      show (if i = k + 2 then some (0 : Int)
        else if i = kprocPid ∨ (PID_MIN ≤ i ∧ i < PID_MAX) then some 0
        else none) =
        (if i = kprocPid ∨ (PID_MIN ≤ i ∧ i < PID_MAX) then some 0 else none)
      split_ifs <;> first | rfl | (exfalso; omega)
    · show (stateAfter k).available - 1 = (stateAfter (k + 1)).available
      rw [hav]
      show PID_MAX - 1 - k - 1 = PID_MAX - 1 - (k + 1)
      omega
    · show Int.ofNat (k + 2) = (stateAfter (k + 1)).next
      show Int.ofNat (k + 2) =
        (if k + 1 + 2 < PID_MAX then Int.ofNat (k + 1 + 2)
         else Int.ofNat (PID_MAX - 1))
      rw [if_neg (by omega)]
      congr 1
      omega

theorem reachable_stateAfter :
    ∀ k : Nat, k + 2 ≤ PID_MAX → Reachable (stateAfter k) := by
  intro k
  induction k with
  | zero =>
    intro _
    rw [stateAfter_zero]
    exact Reachable.boot
  | succ k ih =>
    intro hk
    exact Reachable.step_add (ih (by omega))
      (stateAfter_add k (by omega) [])

/-- C5 (bug in the code): the free-slot hint can go stale.  After
`PID_MAX - 2` successful allocations from bootstrap — a reachable state,
exhibited constructively — the last successful `pidtable_add` finds no
READY slot in its forward scan and leaves `pid_next = PID_MAX - 1`, still
naming the just-allocated RUNNING slot: no READY slot remains
(`readyCount = 0`), yet the hint is neither a READY slot nor the full
sentinel `-1`, refuting the claimed invariant.  (The `-1` sentinel is tied
to `pid_available` reaching 0, which the off-by-one of C4 prevents here;
exits freeing lower slots never update `pid_next` either.) -/
theorem pid_next_stale_after_table_fills :
    Reachable (stateAfter (PID_MAX - 2)) ∧
    pidtable_add (stateAfter (PID_MAX - 3)) [] (PID_MAX - 1) =
      AddResult.ok (PID_MAX - 1) (stateAfter (PID_MAX - 2)) [PID_MAX - 1] ∧
    readyCount (stateAfter (PID_MAX - 2)) = 0 ∧
    (stateAfter (PID_MAX - 2)).next = Int.ofNat (PID_MAX - 1) ∧
    (stateAfter (PID_MAX - 2)).status (PID_MAX - 1) = PidStatus.RUNNING ∧
    (stateAfter (PID_MAX - 2)).next ≠ -1 := by
  have hP : PID_MAX = 32767 := rfl
  have hM : PID_MIN = 2 := rfl
  refine ⟨?_, ?_, ?_, ?_, ?_, ?_⟩
  · exact reachable_stateAfter (PID_MAX - 2) (by omega)
  · have e := stateAfter_add (PID_MAX - 3) (by omega) []
    have e1 : (PID_MAX - 3) + 2 = PID_MAX - 1 := by omega
    have e2 : (PID_MAX - 3) + 1 = PID_MAX - 2 := by omega
    rw [e1, e2, List.nil_append] at e
    exact e
  · unfold readyCount
    apply countReadyAux_none_ready
    intro j h1 h2
    have hK : kprocPid = 1 := rfl
    show (if j = kprocPid then RUNNING
      else if PID_MIN ≤ j ∧ j < (PID_MAX - 2) + 2 then RUNNING
      else if PID_MIN ≤ j ∧ j < PID_MAX then READY else UNINIT) ≠ READY
    split_ifs with ha hb hc
    · simp
    · simp
    · exfalso
      omega
    · simp
  · show (if (PID_MAX - 2) + 2 < PID_MAX then Int.ofNat ((PID_MAX - 2) + 2)
      else Int.ofNat (PID_MAX - 1)) = Int.ofNat (PID_MAX - 1)
    rw [if_neg (by decide)]
  · show (if PID_MAX - 1 = kprocPid then RUNNING
      else if PID_MIN ≤ PID_MAX - 1 ∧ PID_MAX - 1 < (PID_MAX - 2) + 2
        then RUNNING
      else if PID_MIN ≤ PID_MAX - 1 ∧ PID_MAX - 1 < PID_MAX then READY
      else UNINIT) = RUNNING
    rw [if_neg (by decide), if_pos (by decide)]
  · show (if (PID_MAX - 2) + 2 < PID_MAX then Int.ofNat ((PID_MAX - 2) + 2)
      else Int.ofNat (PID_MAX - 1)) ≠ -1
    rw [if_neg (by decide)]
    decide

end OS161
